import Mathlib

/-!
Shallow embedding of the quantum-resistant blockchain node's core:
the chain/block model and its validation rules (src/blockchain/Block.js,
src/blockchain/Blockchain.js, src/validation/BlockValidation.js,
src/blockchain/Transaction.js), the consensus manager
(src/consensus/ConsensusManager.js) and the shard manager
(src/sharding/ShardManager.js).

Modelling conventions:
- JS numbers that hold timestamps, nonces and difficulties are embedded as
  `Int`; monetary amounts and weights that undergo JS float division
  (`stake / minStake`, `reputation / 100`, block rewards `50 / 2^k`) are
  embedded as `Rat` (exact for all values these programs produce).
- The post-quantum crypto library (KyberUtils), the blake3 hash and
  `JSON.stringify`-based sizing are external capabilities; they are passed
  in as function parameters bundled in the `Crypto` structure, exactly
  mirroring the call sites in the source.
- Sources of randomness (`randomBytes`) are passed as explicit arguments,
  and `Date.now()` values as explicit `now` arguments.
- JS `Map`s are embedded as insertion-ordered association lists with
  `lookupA` / `insertA` / `eraseA` mirroring `get` / `set` / `delete`.
-/

namespace QRChain

/-- Opaque detached signature value, as produced by
KyberUtils.generateSignature (a hex ciphertext plus hex randomness);
its internal shape never matters to the core, only oracle verification. -/
structure Sig where
  signature : String
  randomness : String
deriving DecidableEq, Repr

/-- Quantum proof attached to a block or to the genesis block
(KyberUtils proofs have the same signature/randomness shape). -/
structure QProof where
  signature : String
  randomness : String
deriving DecidableEq, Repr

/-- Fields of a transaction record (src/blockchain/Transaction.js
constructor).  `blockHeight` is referenced by `Transaction.isValid` for
coinbase transactions but is assigned by no code path in the repository,
so it is `Option Nat` and stays `none` for every constructed transaction
(in JS it reads as `undefined`). -/
structure Transaction where
  sender : String
  recipient : String
  amount : Rat
  timestamp : Int
  data : String
  senderPublicKey : Option String
  signature : Option Sig
  nonce : Int
  hash : String
  blockHeight : Option Nat
deriving DecidableEq, Repr

/-- Input of the deterministic transaction digest
(Transaction.calculateHash hashes sender, recipient, amount, timestamp,
data and nonce, in that order). -/
structure TxHashInput where
  sender : String
  recipient : String
  amount : Rat
  timestamp : Int
  data : String
  nonce : Int
deriving DecidableEq, Repr

/-- Fields of a block record (src/blockchain/Block.js constructor).
`quantumProof` defaults to `null` in the source, hence `Option`. -/
structure Block where
  timestamp : Int
  lastHash : String
  hash : String
  transactions : List Transaction
  nonce : Int
  difficulty : Int
  quantumProof : Option QProof
  merkleRoot : Option String
deriving DecidableEq, Repr

/-- Input of the deterministic block digest (Block.hash serializes
timestamp, lastHash, transactions, nonce and difficulty). -/
structure BlockHeader where
  timestamp : Int
  lastHash : String
  transactions : List Transaction
  nonce : Int
  difficulty : Int
deriving DecidableEq, Repr

/-- External capabilities consumed by the core, mirroring §6 of the
design: the blake3 digests, the Kyber signature-verification oracles and
the JSON-serialization block-size measure.  `verifyBlockProof` embeds
BlockValidation.validateQuantumProof's call
`KyberUtils.verifyBlockProof(block.hash, block.quantumProof,
block.minerPublicKey)`; the Block class never assigns `minerPublicKey`,
so that argument is the same (undefined) at every call site and is folded
into the oracle. -/
structure Crypto where
  blockHash : BlockHeader → String
  txHash : TxHashInput → String
  verifySignature : String → Sig → String → Bool
  verifyBlockProof : String → Option QProof → Bool
  blockSize : Block → Nat
deriving Inhabited

namespace Transaction

/-- Designated coinbase sender address (Transaction.createCoinbase). -/
def COINBASE_SENDER : String := "0000000000000000000000000000000000000000"

/-- Transaction.calculateBlockReward: `50 / 2^(floor(blockHeight/210000))`
(JS float division, exact here as a rational). -/
def calculateBlockReward (blockHeight : Nat) : Rat :=
  50 / 2 ^ (blockHeight / 210000)

/-- Projection of the hashed fields of a transaction. -/
def hashInput (t : Transaction) : TxHashInput :=
  { sender := t.sender, recipient := t.recipient, amount := t.amount,
    timestamp := t.timestamp, data := t.data, nonce := t.nonce }

/-- Transaction.calculateHash via the blake3 capability. -/
def calculateHash (P : Crypto) (t : Transaction) : String :=
  P.txHash t.hashInput

/-- Transaction.verify: false when the signature or the sender public key
is absent, otherwise the Kyber verification oracle on the stored hash. -/
def verify (P : Crypto) (t : Transaction) : Bool :=
  match t.signature, t.senderPublicKey with
  | some s, some pk => P.verifySignature t.hash s pk
  | _, _ => false

/-- Transaction.isValid, translated check for check: stored hash must
match the recomputed digest; positive amount; distinct sender and
recipient; for the coinbase sender the amount must equal the reward at
`this.blockHeight` (which no code path assigns, so the `none` branch is
the reachable one — in JS the comparison is against `NaN` and is false);
all other transactions fall through to signature verification. -/
def isValid (P : Crypto) (t : Transaction) : Bool :=
  if t.hash ≠ t.calculateHash P then false
  else if t.amount ≤ 0 then false
  else if t.sender = t.recipient then false
  else if t.sender = COINBASE_SENDER then
    match t.blockHeight with
    | none => false
    | some h => t.amount = calculateBlockReward h
  else t.verify P

end Transaction

namespace Block

/-- KyberUtils.generateDeterministicProof: the signature part is the hex
encoding of the fixed seed "quantum-genesis-seed", but the randomness
part is 32 fresh random bytes (`randomBytes(32)`), passed here as the
explicit argument `r`. -/
def generateDeterministicProof (r : String) : QProof :=
  { signature := "7175616e74756d2d67656e657369732d73656564", randomness := r }

/-- Block.genesis, with the fresh randomness drawn inside
KyberUtils.generateInitialQuantumProof made explicit.  The constructor
computes `merkleRoot = calculateMerkleRoot()`, which is `null` for the
empty transaction list, and defaults `nonce` to 0. -/
def genesis (r : String) : Block :=
  { timestamp := 1683900000000
    lastHash := "-----"
    hash := "genesis-hash"
    transactions := []
    nonce := 0
    difficulty := 4
    quantumProof := some (generateDeterministicProof r)
    merkleRoot := none }

/-- Projection of the hashed header fields of a block. -/
def header (b : Block) : BlockHeader :=
  { timestamp := b.timestamp, lastHash := b.lastHash,
    transactions := b.transactions, nonce := b.nonce,
    difficulty := b.difficulty }

end Block

namespace BlockValidation

/-- Target block interval in milliseconds (BLOCK_GENERATION_INTERVAL). -/
def BLOCK_GENERATION_INTERVAL : Int := 10000

/-- Window length in blocks (DIFFICULTY_ADJUSTMENT_INTERVAL). -/
def DIFFICULTY_ADJUSTMENT_INTERVAL : Nat := 10

/-- Maximum serialized block size (MAX_BLOCK_SIZE). -/
def MAX_BLOCK_SIZE : Nat := 1000000

/-- Minimum difficulty (MIN_DIFFICULTY). -/
def MIN_DIFFICULTY : Int := 4

/-- Maximum difficulty (MAX_DIFFICULTY). -/
def MAX_DIFFICULTY : Int := 24

/-- BlockValidation.validateBlockStructure: the typeof checks hold by
typing of the embedding; the one non-trivial conjunct is
`block.quantumProof !== null`. -/
def validateBlockStructure (b : Block) : Bool :=
  b.quantumProof.isSome

/-- BlockValidation.validateBlockHash: recompute the digest over the
header fields and compare with the stored hash. -/
def validateBlockHash (P : Crypto) (b : Block) : Bool :=
  b.hash = P.blockHash b.header

/-- BlockValidation.validateBlockChain for the non-null `lastBlock` case
(the chain walk always passes the predecessor): correct back-reference,
strictly increasing timestamp, difficulty step of at most one. -/
def validateBlockChain (b lastBlock : Block) : Bool :=
  b.lastHash = lastBlock.hash &&
  lastBlock.timestamp < b.timestamp &&
  (b.difficulty - lastBlock.difficulty).natAbs ≤ 1

/-- BlockValidation.validateQuantumProof via the Kyber oracle (the catch
branch returning false on a throwing verifier is part of the oracle). -/
def validateQuantumProof (P : Crypto) (b : Block) : Bool :=
  P.verifyBlockProof b.hash b.quantumProof

/-- BlockValidation.validateBlockSize. -/
def validateBlockSize (P : Crypto) (b : Block) : Bool :=
  P.blockSize b ≤ MAX_BLOCK_SIZE

/-- BlockValidation.isValidBlock: conjunction of the five checks in
source order. -/
def isValidBlock (P : Crypto) (b lastBlock : Block) : Bool :=
  validateBlockStructure b &&
  validateBlockHash P b &&
  validateBlockChain b lastBlock &&
  validateQuantumProof P b &&
  validateBlockSize P b

/-- BlockValidation.adjustDifficulty: a difficulty below MIN_DIFFICULTY
or above MAX_DIFFICULTY is clamped to the bound before the elapsed time
is even consulted; otherwise the elapsed time since the original block
moves the difficulty by at most one step. -/
def adjustDifficulty (originalBlock : Block) (timestamp : Int) : Int :=
  if originalBlock.difficulty < MIN_DIFFICULTY then MIN_DIFFICULTY
  else if originalBlock.difficulty > MAX_DIFFICULTY then MAX_DIFFICULTY
  else if timestamp - originalBlock.timestamp > BLOCK_GENERATION_INTERVAL * 2 then
    max (originalBlock.difficulty - 1) MIN_DIFFICULTY
  else if timestamp - originalBlock.timestamp < BLOCK_GENERATION_INTERVAL / 2 then
    min (originalBlock.difficulty + 1) MAX_DIFFICULTY
  else originalBlock.difficulty

/-- Fallback block value for in-range list indexing (the source indexes
`blocks[blocks.length - 1]` and `blocks[blocks.length - interval]` only
after checking the length). -/
def defaultBlock : Block :=
  { timestamp := 0, lastHash := "", hash := "", transactions := [],
    nonce := 0, difficulty := 0, quantumProof := none, merkleRoot := none }

/-- BlockValidation.validateDifficultyAdjustment: chains shorter than the
adjustment interval pass; otherwise only the deviation of the FINAL
interval-sized window (last block vs the block interval-1 positions
before it) is compared against 25% of the expected window time. -/
def validateDifficultyAdjustment (blocks : List Block) : Bool :=
  if blocks.length < DIFFICULTY_ADJUSTMENT_INTERVAL then true
  else
    let lastBlock := (blocks.get? (blocks.length - 1)).getD defaultBlock
    let lastAdjustmentBlock :=
      (blocks.get? (blocks.length - DIFFICULTY_ADJUSTMENT_INTERVAL)).getD defaultBlock
    let expectedTime :=
      BLOCK_GENERATION_INTERVAL * (DIFFICULTY_ADJUSTMENT_INTERVAL : Int)
    let actualTime := lastBlock.timestamp - lastAdjustmentBlock.timestamp
    ((actualTime - expectedTime).natAbs : Int) ≤ expectedTime / 4

end BlockValidation

namespace Blockchain

/-- Error taxonomy of Blockchain.replaceChain (the thrown messages
"Received chain is not longer than current chain" and
"Received chain is invalid"). -/
inductive RcErr where
  | chainNotLonger
  | chainInvalid
deriving DecidableEq, Repr

/-- Pairwise walk of Blockchain.isValidChain's for-loop: every block from
index 1 on must satisfy isValidBlock against its predecessor. -/
def chainPairsValid (P : Crypto) : List Block → Bool
  | [] => true
  | [_] => true
  | a :: b :: rest => BlockValidation.isValidBlock P b a && chainPairsValid P (b :: rest)

/-- Blockchain.isValidChain: the first element is compared (by
JSON serialization, i.e. structurally) against a freshly constructed
`Block.genesis()` — whose randomness draw is the explicit argument `gr` —
then every adjacent pair is checked, then the difficulty-adjustment
check runs on the whole chain.  An empty chain fails the genesis
comparison (`JSON.stringify(undefined)` is not the genesis string). -/
def isValidChain (P : Crypto) (gr : String) (chain : List Block) : Bool :=
  match chain.head? with
  | none => false
  | some first =>
    if first ≠ Block.genesis gr then false
    else
      chainPairsValid P chain &&
      BlockValidation.validateDifficultyAdjustment chain

/-- Outcome of Blockchain.replaceChain: the thrown-or-returned result
together with the chain the store holds afterwards. -/
structure RcOutcome where
  result : Except RcErr Bool
  chain : List Block
deriving Repr

/-- Blockchain.replaceChain: a candidate no longer than the current chain
throws ChainNotLonger; a longer candidate failing isValidChain throws
ChainInvalid; only after both checks pass is the store swapped (the
database `saveChain` collaborator is modelled as succeeding, which makes
the method return true). -/
def replaceChain (P : Crypto) (gr : String) (chain newChain : List Block) :
    RcOutcome :=
  if newChain.length ≤ chain.length then
    { result := .error .chainNotLonger, chain := chain }
  else if ¬ isValidChain P gr newChain then
    { result := .error .chainInvalid, chain := chain }
  else
    { result := .ok true, chain := newChain }

/-- Blockchain.getBlockByHeight: null for a negative height or one at or
beyond the chain length, else the block stored at that index. -/
def getBlockByHeight (chain : List Block) (height : Int) : Option Block :=
  if height < 0 ∨ (chain.length : Int) ≤ height then none
  else chain.get? height.toNat

end Blockchain

/-! Association-list embedding of JS `Map`: `set` replaces in place when
the key is present and appends otherwise (preserving insertion order for
iteration), `get` finds the unique entry, `delete` removes it. -/

/-- Lookup in an insertion-ordered association list (JS `Map.get`). -/
def lookupA {K V : Type} [DecidableEq K] : List (K × V) → K → Option V
  | [], _ => none
  | p :: rest, k => if p.1 = k then some p.2 else lookupA rest k

/-- Insert into an insertion-ordered association list (JS `Map.set`). -/
def insertA {K V : Type} [DecidableEq K] (m : List (K × V)) (k : K) (v : V) :
    List (K × V) :=
  if (lookupA m k).isSome then
    m.map (fun p => if p.1 = k then (k, v) else p)
  else m ++ [(k, v)]

/-- Delete from an association list (JS `Map.delete`). -/
def eraseA {K V : Type} [DecidableEq K] (m : List (K × V)) (k : K) :
    List (K × V) :=
  m.filter (fun p => decide (p.1 ≠ k))

namespace ConsensusManager

/-- Validator record created by ConsensusManager.registerValidator. -/
structure Validator where
  address : String
  stake : Nat
  publicKey : String
  blocksMined : Nat
  lastActive : Int
  reputation : Int
  quantumProof : String
deriving DecidableEq, Repr

/-- Minimum stake (config.consensus.validatorStake). -/
def minStake : Nat := 1000000

/-- Minimum number of active validators (config.consensus.minValidators). -/
def minValidators : Nat := 4

/-- Per-block base reward (config.consensus.blockReward). -/
def blockReward : Nat := 50

/-- Maximum transactions per block
(config.blockchain.maxTransactionsPerBlock). -/
def maxTransactionsPerBlock : Nat := 2000

/-- Mutable state owned by the ConsensusManager: the validator registry
and the epoch bookkeeping, plus a ledger of the
`blockchain.distributeValidatorReward` calls issued so far (the
reward-credit collaborator). -/
structure CMState where
  validators : List (String × Validator)
  currentEpoch : Nat
  epochBlocks : List (Nat × List (String × List Block))
  credits : List (String × Int)
deriving Repr

/-- Errors thrown by ConsensusManager.registerValidator. -/
inductive RegErr where
  | insufficientStake
  | duplicateValidator
deriving DecidableEq, Repr

/-- Errors of ConsensusManager.selectNextValidator: the thrown
"Not enough active validators", plus the RangeError JS raises in
`generateQuantumRandomNumber` when the total active stake is zero
(`BigInt` modulus by zero). -/
inductive SelErr where
  | insufficientValidators
  | rangeError
deriving DecidableEq, Repr

/-- ConsensusManager.registerValidator: insufficient stake and duplicate
address are rejected; otherwise a record with reputation 100, zero blocks
mined and `lastActive = Date.now()` enters the registry.  `proofGen`
stands for `KyberUtils.generateValidatorProof`. -/
def registerValidator (proofGen : String → String) (now : Int)
    (st : CMState) (address : String) (stake : Nat) (publicKey : String) :
    Except RegErr (CMState × Validator) :=
  if stake < minStake then .error .insufficientStake
  else if (lookupA st.validators address).isSome then
    .error .duplicateValidator
  else
    let v : Validator :=
      { address := address, stake := stake, publicKey := publicKey,
        blocksMined := 0, lastActive := now, reputation := 100,
        quantumProof := proofGen publicKey }
    .ok ({ st with validators := insertA st.validators address v }, v)

/-- ConsensusManager.isValidatorActive: lastActive strictly within the
last 24 hours and reputation at least 50. -/
def isValidatorActive (now : Int) (v : Validator) : Bool :=
  now - 24 * 60 * 60 * 1000 < v.lastActive && 50 ≤ v.reputation

/-- Walk of selectNextValidator's for-loop: accumulate stake over the
active validators in registry order and return the first at which the
drawn value does not exceed the cumulative stake. -/
def walkSelect (r : Nat) : Nat → List Validator → Option Validator
  | _, [] => none
  | cum, v :: rest =>
    if r ≤ cum + v.stake then some v else walkSelect r (cum + v.stake) rest

/-- The local `activeValidators` of selectNextValidator: the registry
values filtered to the active ones, in registry (insertion) order. -/
def activeValidators (now : Int) (st : CMState) : List Validator :=
  (st.validators.map Prod.snd).filter (isValidatorActive now)

/-- The local `totalStake` of selectNextValidator. -/
def totalActiveStake (now : Int) (st : CMState) : Nat :=
  ((activeValidators now st).map Validator.stake).sum

/-- ConsensusManager.selectNextValidator: filter the registry values to
the active ones, fail when fewer than the configured minimum remain, draw
`randomBytes(32) mod totalStake` (the raw 256-bit draw is the explicit
argument `rand`; a zero total stake makes the BigInt modulus throw a
RangeError) and walk the cumulative stakes; the unreachable fallthrough
returns the first active validator. -/
def selectNextValidator (now : Int) (rand : Nat) (st : CMState) :
    Except SelErr Validator :=
  if (activeValidators now st).length < minValidators then
    .error .insufficientValidators
  else if totalActiveStake now st = 0 then .error .rangeError
  else
    match walkSelect (rand % totalActiveStake now st) 0
        (activeValidators now st) with
    | some v => .ok v
    | none =>
      match activeValidators now st with
      | v :: _ => .ok v
      | [] => .error .rangeError

/-- ConsensusManager.assessBlockQuality: up to three bonuses of 5 for a
within-limit block size, a within-limit transaction count and a
propagation delay of at most one second. -/
def assessBlockQuality (P : Crypto) (now : Int) (block : Block) : Int :=
  (if P.blockSize block ≤ BlockValidation.MAX_BLOCK_SIZE then 5 else 0) +
  (if block.transactions.length ≤ maxTransactionsPerBlock then 5 else 0) +
  (if now - block.timestamp ≤ 1000 then 5 else 0)

/-- ConsensusManager.updateValidatorStats: a missing address is a no-op;
otherwise increment blocksMined, refresh lastActive and add the block
quality to the reputation, clamped into [0, 100]. -/
def updateValidatorStats (P : Crypto) (now : Int) (st : CMState)
    (address : String) (block : Block) : CMState :=
  match lookupA st.validators address with
  | none => st
  | some v =>
    let v' :=
      { v with
        blocksMined := v.blocksMined + 1
        lastActive := now
        reputation :=
          max 0 (min 100 (v.reputation + assessBlockQuality P now block)) }
    { st with validators := insertA st.validators address v' }

/-- ConsensusManager.validateBlock: false when the block's quantum proof
fails Kyber verification against the validator's public key, false when
the validator is not active; only then are the validator's statistics
updated and true returned.  `V` stands for `KyberUtils.verifyBlockProof`
at this call site (hash, proof, validator.publicKey). -/
def cmValidateBlock (P : Crypto) (V : String → Option QProof → String → Bool)
    (now : Int) (st : CMState) (block : Block) (validator : Validator) :
    Bool × CMState :=
  if ¬ V block.hash block.quantumProof validator.publicKey then (false, st)
  else if ¬ isValidatorActive now validator then (false, st)
  else (true, updateValidatorStats P now st validator.address block)

/-- The per-validator reward of calculateValidatorRewards:
`Math.floor(baseReward * stakeWeight * reputationWeight)` with
`baseReward = blocks.length * blockReward`,
`stakeWeight = stake / minStake` and
`reputationWeight = reputation / 100` (exact JS float division). -/
def validatorReward (v : Validator) (blocks : List Block) : Int :=
  ⌊(blocks.length : Rat) * (blockReward : Rat) *
    ((v.stake : Rat) / (minStake : Rat)) * ((v.reputation : Rat) / 100)⌋

/-- Loop body of calculateValidatorRewards: addresses no longer in the
registry are skipped, others get their reward set in the result map. -/
def rewardStep (st : CMState) (rewards : List (String × Int))
    (p : String × List Block) : List (String × Int) :=
  match lookupA st.validators p.1 with
  | none => rewards
  | some v => insertA rewards p.1 (validatorReward v p.2)

/-- ConsensusManager.calculateValidatorRewards: fold `rewardStep` over
the epoch's recorded (address, blocks) entries (an unrecorded epoch reads
as the empty map). -/
def calculateValidatorRewards (st : CMState) (epoch : Nat) :
    List (String × Int) :=
  ((lookupA st.epochBlocks epoch).getD []).foldl (rewardStep st) []

/-- ConsensusManager.distributeRewards: credit every reward of the epoch
through the blockchain collaborator (appended to the credit ledger in
iteration order), then delete the epoch's bookkeeping entry and advance
the current epoch counter. -/
def distributeRewards (st : CMState) (epoch : Nat) : CMState :=
  let rewards := calculateValidatorRewards st epoch
  { st with
    credits := st.credits ++ rewards
    epochBlocks := eraseA st.epochBlocks epoch
    currentEpoch := st.currentEpoch + 1 }

end ConsensusManager

namespace ShardManager

/-- Status field of a tracked cross-shard transaction
(the strings "pending", "processing", "completed"). -/
inductive CsStatus where
  | pending
  | processing
  | completed
deriving DecidableEq, Repr

/-- Tracking record of a cross-shard transaction
(ShardManager.processCrossShardTransaction; `finalizationProof` and
`completedAt` are set only on completion). -/
structure CrossShardTx where
  transaction : Transaction
  sourceShard : String
  targetShard : String
  proof : String
  status : CsStatus
  timestamp : Int
  finalizationProof : Option String
  completedAt : Option Int
deriving DecidableEq, Repr

/-- Per-shard mutable record (ShardManager.initializeShards; the
key-value account `state` map is untouched by the modelled operations
and omitted). -/
structure Shard where
  id : String
  chain : List Block
  pendingTransactions : List (String × Transaction)
  lastProcessedBlock : Option Block
  validatorSet : List String
deriving DecidableEq, Repr

/-- Collaborator capabilities of the shard manager: the shard counts read
from `config.sharding`, the blake3 address digest interpreted as a BigInt
(only its residue class is ever used), and the Kyber oracles for
signature verification and proof generation. -/
structure SMParams where
  totalShards : Nat
  minValidatorsPerShard : Nat
  addrHash : String → Nat
  verifySignature : String → Sig → String → Bool
  genCrossShardProof : String → String
  genFinalizationProof : String → String

/-- Mutable state owned by the ShardManager: the shard table, the
validator-to-shard assignment and the cross-shard tracking table. -/
structure SMState where
  shards : List (String × Shard)
  shardValidators : List (String × String)
  crossShardTransactions : List (String × CrossShardTx)
deriving Repr

/-- Errors thrown by the modelled shard operations ("Invalid shard",
"Insufficient validator signatures"). -/
inductive SMErr where
  | invalidShard
  | insufficientSignatures
deriving DecidableEq, Repr

/-- ShardManager.getAddressShard: `hash(address) mod totalShards`, mapped
onto the insertion-ordered enumeration of shard ids; `none` when the
index falls outside the enumeration (in JS the subsequent `Map.get`
on `undefined` then throws). -/
def getAddressShard (Q : SMParams) (st : SMState) (address : String) :
    Option String :=
  (st.shards.map Prod.fst).get? (Q.addrHash address % Q.totalShards)

/-- ShardManager.getTransactionShard routes by the sender address. -/
def getTransactionShard (Q : SMParams) (st : SMState) (t : Transaction) :
    Option String :=
  getAddressShard Q st t.sender

/-- Point update of one shard's record, as JS mutation of the object held
in the shard map does. -/
def updateShard (st : SMState) (sid : String) (f : Shard → Shard) : SMState :=
  { st with shards := st.shards.map (fun p => if p.1 = sid then (p.1, f p.2) else p) }

/-- ShardManager.processCrossShardTransaction: generate the binding
proof over `txHash ++ sourceShard ++ targetShard`, record the transaction
as pending in the tracking table, and add it to BOTH shards' pending
tables (source first, then target, as in the source). -/
def processCrossShardTransaction (Q : SMParams) (now : Int) (st : SMState)
    (t : Transaction) : Except SMErr SMState :=
  match getTransactionShard Q st t, getAddressShard Q st t.recipient with
  | some sourceShard, some targetShard =>
    let crossShardTx : CrossShardTx :=
      { transaction := t, sourceShard := sourceShard,
        targetShard := targetShard,
        proof := Q.genCrossShardProof (t.hash ++ sourceShard ++ targetShard),
        status := .pending, timestamp := now,
        finalizationProof := none, completedAt := none }
    let st1 :=
      { st with crossShardTransactions :=
          insertA st.crossShardTransactions t.hash crossShardTx }
    .ok (updateShard
          (updateShard st1 sourceShard
            (fun sh =>
              { sh with
                pendingTransactions := insertA sh.pendingTransactions t.hash t }))
          targetShard
          (fun sh =>
            { sh with
              pendingTransactions := insertA sh.pendingTransactions t.hash t }))
  | _, _ => .error .invalidShard

/-- ShardManager.finalizeCrossShardTransaction: an untracked hash is a
no-op; otherwise generate the finalization proof over
`txHash ++ sourceShard ++ targetShard ++ Date.now()`, delete the hash
from both involved shards' pending tables (shards exist for every
tracked transaction, since shards are created once at initialization and
never removed) and mark the record completed. -/
def finalizeCrossShardTransaction (Q : SMParams) (now : Int) (st : SMState)
    (txHash : String) : SMState :=
  match lookupA st.crossShardTransactions txHash with
  | none => st
  | some crossShardTx =>
    let proof := Q.genFinalizationProof
      (crossShardTx.transaction.hash ++ crossShardTx.sourceShard ++
        crossShardTx.targetShard ++ toString now)
    let st1 := updateShard st crossShardTx.sourceShard
      (fun sh =>
        { sh with
          pendingTransactions := eraseA sh.pendingTransactions txHash })
    let st2 := updateShard st1 crossShardTx.targetShard
      (fun sh =>
        { sh with
          pendingTransactions := eraseA sh.pendingTransactions txHash })
    { st2 with
      crossShardTransactions :=
        insertA st2.crossShardTransactions txHash
          ({ crossShardTx with
             status := .completed
             finalizationProof := some proof
             completedAt := some now }) }

/-- ShardManager.processCrossShardTransactions: walk the finalized
block's transactions in order; a tracked pending one advances to
processing, a tracked processing one is finalized. -/
def processCrossShardTransactions (Q : SMParams) (now : Int) (st : SMState)
    (block : Block) : SMState :=
  block.transactions.foldl
    (fun st t =>
      match lookupA st.crossShardTransactions t.hash with
      | none => st
      | some crossShardTx =>
        match crossShardTx.status with
        | .pending =>
          { st with
            crossShardTransactions :=
              insertA st.crossShardTransactions t.hash
                { crossShardTx with status := .processing } }
        | .processing => finalizeCrossShardTransaction Q now st t.hash
        | .completed => st)
    st

/-- JS `Set.add`: append when not already present. -/
def addToSet (l : List String) (k : String) : List String :=
  if k ∈ l then l else l ++ [k]

/-- ShardManager.verifyValidatorSignatures: the set of validator keys
whose signature over the block hash verifies. -/
def verifyValidatorSignatures (Q : SMParams) (blockHash : String)
    (signatures : List (String × Sig)) : List String :=
  signatures.foldl
    (fun valid p =>
      if Q.verifySignature blockHash p.2 p.1 then addToSet valid p.1
      else valid)
    []

/-- ShardManager.finalizeBlock: unknown shard and sub-quorum signature
sets are rejected; then the cross-shard walk runs, the block is appended
to the shard's chain, recorded as last processed, and every transaction
of the block is deleted from THIS shard's pending table. -/
def finalizeBlock (Q : SMParams) (now : Int) (st : SMState) (shardId : String)
    (block : Block) (validatorSignatures : List (String × Sig)) :
    Except SMErr SMState :=
  if (lookupA st.shards shardId).isNone then .error .invalidShard
  else
    let validSignatures := verifyValidatorSignatures Q block.hash validatorSignatures
    if validSignatures.length < Q.minValidatorsPerShard then
      .error .insufficientSignatures
    else
      let st1 := processCrossShardTransactions Q now st block
      .ok (updateShard st1 shardId
        (fun sh =>
          { sh with
            chain := sh.chain ++ [block]
            lastProcessedBlock := some block
            pendingTransactions :=
              block.transactions.foldl (fun m t => eraseA m t.hash)
                sh.pendingTransactions }))

end ShardManager

/-! Claim-language definitions (from the spec's words, for comparison
with the source embedding above). -/

/-- Stated from the spec: the difficulty-drift condition on ONE
interval-sized window of ten consecutive blocks starting at index `i` —
the time it spans deviates from the target interval time
(10 blocks times 10 seconds) by at most 25%. -/
def windowDeviationOk (blocks : List Block) (i : Nat) : Bool :=
  let firstB := (blocks.get? i).getD BlockValidation.defaultBlock
  let lastB := (blocks.get?
    (i + BlockValidation.DIFFICULTY_ADJUSTMENT_INTERVAL - 1)).getD
    BlockValidation.defaultBlock
  let expectedTime :=
    BlockValidation.BLOCK_GENERATION_INTERVAL *
      (BlockValidation.DIFFICULTY_ADJUSTMENT_INTERVAL : Int)
  decide (((lastB.timestamp - firstB.timestamp - expectedTime).natAbs : Int) ≤
    expectedTime / 4)

/-- Stated from the spec: difficulty drift stays within 25% of the target
over EVERY interval-sized window of the chain. -/
def allWindowsWithinDeviation (blocks : List Block) : Bool :=
  (List.range
    (blocks.length + 1 - BlockValidation.DIFFICULTY_ADJUSTMENT_INTERVAL)).all
    (fun i => windowDeviationOk blocks i)

/-! Concrete instantiations of the external capabilities and small
concrete states, used to evaluate the operations on explicit inputs. -/

/-- Concrete crypto capability: the block digest is the decimal nonce,
every proof verifies, every block serializes to 0 bytes. -/
def P0 : Crypto :=
  { blockHash := fun hdr => toString hdr.nonce
    txHash := fun _ => "tx"
    verifySignature := fun _ _ _ => true
    verifyBlockProof := fun _ _ => true
    blockSize := fun _ => 0 }

/-- Concrete block with the given timestamp, link, digest and nonce. -/
def mkB (ts : Int) (lastHash hash : String) (nonce : Int) : Block :=
  { timestamp := ts, lastHash := lastHash, hash := hash, transactions := [],
    nonce := nonce, difficulty := 4,
    quantumProof := some (Block.generateDeterministicProof "x"),
    merkleRoot := none }

/-- Eleven-block chain on top of genesis: a one-thousand-second gap
between genesis and block 1, then ten-second spacing.  Its final
ten-block window spans 90 s (within 25% of 100 s), while the window
starting at genesis spans 1080 s. -/
def chainC1 : List Block :=
  [Block.genesis "r",
   mkB 1683901000000 "genesis-hash" "1" 1,
   mkB 1683901010000 "1" "2" 2,
   mkB 1683901020000 "2" "3" 3,
   mkB 1683901030000 "3" "4" 4,
   mkB 1683901040000 "4" "5" 5,
   mkB 1683901050000 "5" "6" 6,
   mkB 1683901060000 "6" "7" 7,
   mkB 1683901070000 "7" "8" 8,
   mkB 1683901080000 "8" "9" 9,
   mkB 1683901090000 "9" "10" 10]

/-- Two-block candidate whose second block's stored digest does not match
the recomputed one: longer than a bare genesis chain but invalid. -/
def chainBad : List Block :=
  [Block.genesis "r", mkB 1683901000000 "genesis-hash" "bad" 1]

/-- Empty consensus state. -/
def cmSt0 : ConsensusManager.CMState :=
  { validators := [], currentEpoch := 0, epochBlocks := [], credits := [] }

/-- Freshly registered validator record. -/
def regV : ConsensusManager.Validator :=
  { address := "a", stake := 1000000, publicKey := "pk", blocksMined := 0,
    lastActive := 0, reputation := 100, quantumProof := "qp" }

/-- The record `regV` becomes after one statistics update at time 0 under
`P0` (quality 15, reputation clamped back to 100). -/
def regV2 : ConsensusManager.Validator :=
  { regV with blocksMined := 1 }

/-- Registry holding just `regV`. -/
def cmSt1 : ConsensusManager.CMState :=
  { validators := [("a", regV)], currentEpoch := 0, epochBlocks := [],
    credits := [] }

/-- Validator that is inactive on both counts: stale lastActive and zero
reputation. -/
def staleV : ConsensusManager.Validator :=
  { address := "b", stake := 1000000, publicKey := "pk2", blocksMined := 0,
    lastActive := -100000000000, reputation := 0, quantumProof := "q" }

/-- Validator with double the minimum stake and reputation 50, with three
blocks recorded in epoch 0: its epoch reward is
floor(3 x 50 x 2 x 0.5) = 150. -/
def rewV : ConsensusManager.Validator :=
  { address := "a", stake := 2000000, publicKey := "pk", blocksMined := 0,
    lastActive := 0, reputation := 50, quantumProof := "qp" }

/-- Consensus state with `rewV` registered and three blocks recorded for
it in epoch 0. -/
def cmSt7 : ConsensusManager.CMState :=
  { validators := [("a", rewV)], currentEpoch := 0,
    epochBlocks :=
      [(0, [("a", [BlockValidation.defaultBlock, BlockValidation.defaultBlock,
                   BlockValidation.defaultBlock])])],
    credits := [] }

/-- Concrete shard-manager capability: two shards, quorum of one, "alice"
routes to index 0 and every other address to index 1, every signature
verifies. -/
def Q0 : ShardManager.SMParams :=
  { totalShards := 2, minValidatorsPerShard := 1
    addrHash := fun a => if a = "alice" then 0 else 1
    verifySignature := fun _ _ _ => true
    genCrossShardProof := fun _ => "csp"
    genFinalizationProof := fun _ => "fp" }

/-- Concrete cross-shard transaction from "alice" (shard s0) to "bob"
(shard s1). -/
def tx0 : Transaction :=
  { sender := "alice", recipient := "bob", amount := 5, timestamp := 0,
    data := "", senderPublicKey := some "apk",
    signature := some { signature := "sg", randomness := "rn" }, nonce := 0,
    hash := "txh", blockHeight := none }

/-- Empty shard record with the given id. -/
def emptyShard (i : String) : ShardManager.Shard :=
  { id := i, chain := [], pendingTransactions := [],
    lastProcessedBlock := none, validatorSet := [] }

/-- Two freshly initialized shards s0 and s1, nothing tracked. -/
def smSt0 : ShardManager.SMState :=
  { shards := [("s0", emptyShard "s0"), ("s1", emptyShard "s1")],
    shardValidators := [], crossShardTransactions := [] }

/-- Concrete shard block containing exactly `tx0`. -/
def blk0 : Block :=
  { timestamp := 0, lastHash := "", hash := "bh", transactions := [tx0],
    nonce := 0, difficulty := 4, quantumProof := none, merkleRoot := none }

/-- One validator signature over `blk0` (verified by `Q0`). -/
def sigs0 : List (String × Sig) :=
  [("vk", { signature := "s", randomness := "r" })]

/-- Transaction with amount 0 (stored hash matching `P0`'s digest). -/
def txZero : Transaction :=
  { sender := "alice", recipient := "bob", amount := 0, timestamp := 0,
    data := "", senderPublicKey := some "apk",
    signature := some { signature := "sg", randomness := "rn" }, nonce := 0,
    hash := "tx", blockHeight := none }

/-- Transaction paying its own sender. -/
def txSelf : Transaction :=
  { txZero with amount := 5, recipient := "alice" }

/-- Observation of a cross-shard transaction's lifecycle state: its
tracked status, and its entry (or absence) in each of the two given
shards' pending tables. -/
def csObs (t : Transaction) (s0 s1 : String) (st : ShardManager.SMState) :
    Option ShardManager.CsStatus × Option (Option Transaction) ×
      Option (Option Transaction) :=
  ((lookupA st.crossShardTransactions t.hash).map
      ShardManager.CrossShardTx.status,
   (lookupA st.shards s0).map
     (fun sh => lookupA sh.pendingTransactions t.hash),
   (lookupA st.shards s1).map
     (fun sh => lookupA sh.pendingTransactions t.hash))

/-! Association-list lemmas shared by the proofs below. -/

/-- Reading back the key just written by `insertA`. -/
theorem lookupA_insertA_self {K V : Type} [DecidableEq K]
    (m : List (K × V)) (k : K) (v : V) :
    lookupA (insertA m k v) k = some v := by
  unfold insertA
  split
  case isTrue h =>
    induction m with
    | nil => simp [lookupA] at h
    | cons p rest ih =>
      by_cases hp : p.1 = k
      · simp [lookupA, hp]
      · simp only [lookupA, hp, if_false, List.map_cons, if_neg hp] at h ⊢
        exact ih h
  case isFalse h =>
    induction m with
    | nil => simp [lookupA]
    | cons p rest ih =>
      by_cases hp : p.1 = k
      · exact absurd (by simp [lookupA, hp]) h
      · simp only [lookupA, List.cons_append, if_neg hp] at h ⊢
        exact ih (by simpa [lookupA, hp] using h)

/-- The in-place replacement pass of `insertA` preserves every other
key's binding (entry keys are unchanged by the pass). -/
theorem lookupA_map_replace {K V : Type} [DecidableEq K]
    (m : List (K × V)) (k k2 : K) (v : V) (h : k2 ≠ k) :
    lookupA (m.map (fun p => if p.1 = k then (k, v) else p)) k2 =
      lookupA m k2 := by
  induction m with
  | nil => rfl
  | cons p rest ih =>
    by_cases hp : p.1 = k
    · simp [lookupA, hp, Ne.symm h, ih]
    · by_cases hk2 : p.1 = k2
      · simp [lookupA, hp, hk2, h]
      · simp [lookupA, hp, hk2, ih]

/-- Appending a fresh binding does not affect other keys. -/
theorem lookupA_append_single {K V : Type} [DecidableEq K]
    (m : List (K × V)) (k k2 : K) (v : V) (h : k2 ≠ k) :
    lookupA (m ++ [(k, v)]) k2 = lookupA m k2 := by
  induction m with
  | nil => simp [lookupA, Ne.symm h]
  | cons p rest ih =>
    by_cases hp : p.1 = k2 <;> simp [lookupA, hp, ih]

/-- `insertA` leaves every other key's binding unchanged. -/
theorem lookupA_insertA_ne {K V : Type} [DecidableEq K]
    (m : List (K × V)) (k k2 : K) (v : V) (h : k2 ≠ k) :
    lookupA (insertA m k v) k2 = lookupA m k2 := by
  unfold insertA
  split
  · exact lookupA_map_replace m k k2 v h
  · exact lookupA_append_single m k k2 v h

/-- A key is unbound after `eraseA` removes it. -/
theorem lookupA_eraseA_self {K V : Type} [DecidableEq K]
    (m : List (K × V)) (k : K) :
    lookupA (eraseA m k) k = none := by
  unfold eraseA
  induction m with
  | nil => rfl
  | cons p rest ih =>
    rw [List.filter_cons]
    by_cases hp : p.1 = k
    · simpa [hp] using ih
    · simpa [lookupA, hp] using ih

/-- Every entry of `insertA m k v` is the new binding or an old entry. -/
theorem mem_insertA {K V : Type} [DecidableEq K]
    {m : List (K × V)} {k : K} {v : V} {p : K × V}
    (h : p ∈ insertA m k v) : p = (k, v) ∨ p ∈ m := by
  unfold insertA at h
  split at h
  · rcases List.mem_map.mp h with ⟨q, hq, he⟩
    by_cases hk : q.1 = k
    · left
      simp only [if_pos hk] at he
      exact he.symm
    · right
      simp only [if_neg hk] at he
      exact he ▸ hq
  · rcases List.mem_append.mp h with h1 | h1
    · right; exact h1
    · left; simpa using h1

/-- A selection returned by the cumulative-stake walk comes from the
walked list. -/
theorem walkSelect_mem (r : Nat) (l : List ConsensusManager.Validator) :
    ∀ (c : Nat) (v : ConsensusManager.Validator),
      ConsensusManager.walkSelect r c l = some v → v ∈ l := by
  induction l with
  | nil =>
    intro c v h
    simp [ConsensusManager.walkSelect] at h
  | cons x xs ih =>
    intro c v h
    simp only [ConsensusManager.walkSelect] at h
    split at h
    · cases h
      exact List.mem_cons_self x xs
    · exact List.mem_cons_of_mem _ (ih _ v h)

/-- The pairwise walk of `isValidChain` validates every adjacent pair. -/
theorem chainPairsValid_get (P : Crypto) :
    ∀ (l : List Block), Blockchain.chainPairsValid P l = true →
    ∀ (i : Nat) (a b : Block), l.get? i = some a → l.get? (i + 1) = some b →
    BlockValidation.isValidBlock P b a = true := by
  intro l
  induction l with
  | nil =>
    intro _ i a b h1 _
    simp at h1
  | cons x xs ih =>
    cases xs with
    | nil =>
      intro _ i a b _ h2
      cases i <;> simp at h2
    | cons y ys =>
      intro hv i a b h1 h2
      simp only [Blockchain.chainPairsValid, Bool.and_eq_true] at hv
      cases i with
      | zero =>
        simp only [List.get?_cons_zero, Option.some.injEq] at h1
        simp only [List.get?_cons_succ, List.get?_cons_zero,
          Option.some.injEq] at h2
        rw [← h1, ← h2]
        exact hv.1
      | succ n =>
        refine ih hv.2 n a b ?_ ?_
        · simpa using h1
        · simpa using h2

/-- For a chain of at least the adjustment interval,
`validateDifficultyAdjustment` is exactly the spec's window condition on
the FINAL interval-sized window. -/
theorem vda_eq_window (blocks : List Block)
    (h : BlockValidation.DIFFICULTY_ADJUSTMENT_INTERVAL ≤ blocks.length) :
    BlockValidation.validateDifficultyAdjustment blocks =
      windowDeviationOk blocks
        (blocks.length - BlockValidation.DIFFICULTY_ADJUSTMENT_INTERVAL) := by
  unfold BlockValidation.validateDifficultyAdjustment windowDeviationOk
  rw [if_neg (by omega)]
  have hidx : blocks.length - BlockValidation.DIFFICULTY_ADJUSTMENT_INTERVAL +
      BlockValidation.DIFFICULTY_ADJUSTMENT_INTERVAL - 1 = blocks.length - 1 := by
    have h10 : BlockValidation.DIFFICULTY_ADJUSTMENT_INTERVAL = 10 := rfl
    omega
  rw [hidx]

/-- C4, counterexample: for a previous block with difficulty 0 (below
minDifficulty) and an elapsed time of 10000 ms — inside the band where
the claim says the difficulty is returned unchanged — adjustDifficulty
returns 4, not 0, and the result differs from the previous difficulty by
more than 1. -/
theorem c4_claim_counterexample :
    BlockValidation.adjustDifficulty BlockValidation.defaultBlock 10000 = 4 ∧
    BlockValidation.defaultBlock.difficulty = 0 ∧
    BlockValidation.BLOCK_GENERATION_INTERVAL / 2 ≤
      10000 - BlockValidation.defaultBlock.timestamp ∧
    10000 - BlockValidation.defaultBlock.timestamp ≤
      BlockValidation.BLOCK_GENERATION_INTERVAL * 2 ∧
    BlockValidation.adjustDifficulty BlockValidation.defaultBlock 10000 ≠
      BlockValidation.defaultBlock.difficulty ∧
    ¬ (BlockValidation.adjustDifficulty BlockValidation.defaultBlock 10000 -
        BlockValidation.defaultBlock.difficulty).natAbs ≤ 1 := by
  decide

/-- C4, amended: for every previous block whose difficulty lies within
[minDifficulty, maxDifficulty], adjustDifficulty decreases the difficulty
by 1 (floored at minDifficulty) when the elapsed time exceeds twice the
target interval, increases it by 1 (capped at maxDifficulty) when the
elapsed time is under half the target interval, leaves it unchanged
otherwise, and never moves it by more than 1. -/
theorem c4_adjustDifficulty_amended (b : Block) (ts : Int)
    (hlo : BlockValidation.MIN_DIFFICULTY ≤ b.difficulty)
    (hhi : b.difficulty ≤ BlockValidation.MAX_DIFFICULTY) :
    (BlockValidation.BLOCK_GENERATION_INTERVAL * 2 < ts - b.timestamp →
      BlockValidation.adjustDifficulty b ts =
        max (b.difficulty - 1) BlockValidation.MIN_DIFFICULTY) ∧
    (ts - b.timestamp < BlockValidation.BLOCK_GENERATION_INTERVAL / 2 →
      BlockValidation.adjustDifficulty b ts =
        min (b.difficulty + 1) BlockValidation.MAX_DIFFICULTY) ∧
    (BlockValidation.BLOCK_GENERATION_INTERVAL / 2 ≤ ts - b.timestamp →
      ts - b.timestamp ≤ BlockValidation.BLOCK_GENERATION_INTERVAL * 2 →
      BlockValidation.adjustDifficulty b ts = b.difficulty) ∧
    (BlockValidation.adjustDifficulty b ts - b.difficulty).natAbs ≤ 1 := by
  have e4 : BlockValidation.MIN_DIFFICULTY = 4 := rfl
  have e24 : BlockValidation.MAX_DIFFICULTY = 24 := rfl
  have eI : BlockValidation.BLOCK_GENERATION_INTERVAL = 10000 := rfl
  rw [e4] at hlo
  rw [e24] at hhi
  unfold BlockValidation.adjustDifficulty
  rw [e4, e24, eI]
  rw [if_neg (by omega), if_neg (by omega)]
  refine ⟨?_, ?_, ?_, ?_⟩
  · intro h
    rw [if_pos (by omega)]
  · intro h
    rw [if_neg (by omega), if_pos (by omega)]
  · intro h1 h2
    rw [if_neg (by omega), if_neg (by omega)]
  · by_cases h1 : 10000 * 2 < ts - b.timestamp
    · rw [if_pos h1, max_def]
      split_ifs <;> omega
    · rw [if_neg h1]
      by_cases h2 : ts - b.timestamp < 10000 / 2
      · rw [if_pos h2, min_def]
        split_ifs <;> omega
      · rw [if_neg h2]
        omega

/-- C4, witness: on a block of difficulty 4 mined 30 s before the new
timestamp, the amended theorem's slow branch applies. -/
theorem c4_amended_witness :
    BlockValidation.adjustDifficulty (Block.genesis "w") 1683900030000 =
      max ((Block.genesis "w").difficulty - 1)
        BlockValidation.MIN_DIFFICULTY :=
  (c4_adjustDifficulty_amended (Block.genesis "w") 1683900030000
    (by decide) (by decide)).1 (by decide)

/-- C9: the genesis block always carries the sentinel lastHash "-----"
and zero transactions, but it is NOT byte-identical across runs — the
"deterministic" genesis proof embeds 32 fresh random bytes, so two runs
whose draws differ produce different genesis blocks. -/
theorem c9_genesis_randomness_dependent :
    (∀ r : String, (Block.genesis r).lastHash = "-----" ∧
      (Block.genesis r).transactions = []) ∧
    Block.genesis "00" ≠ Block.genesis "01" := by
  refine ⟨fun r => ⟨rfl, rfl⟩, ?_⟩
  decide

/-- C10: getBlockByHeight returns null exactly on negative heights and
heights at or beyond the chain length, and the stored block at the index
otherwise (total, never throwing). -/
theorem c10_getBlockByHeight_total (chain : List Block) (height : Int) :
    (height < 0 ∨ (chain.length : Int) ≤ height →
      Blockchain.getBlockByHeight chain height = none) ∧
    (0 ≤ height → height < (chain.length : Int) →
      Blockchain.getBlockByHeight chain height = chain.get? height.toNat ∧
      (Blockchain.getBlockByHeight chain height).isSome = true) := by
  constructor
  · intro h
    unfold Blockchain.getBlockByHeight
    rw [if_pos h]
  · intro h1 h2
    unfold Blockchain.getBlockByHeight
    rw [if_neg (by omega)]
    refine ⟨rfl, ?_⟩
    have hlt : height.toNat < chain.length := by omega
    rw [List.get?_eq_get hlt]
    rfl

/-- C10, witness: on a one-block chain, height -1 yields null and height
0 yields the stored block. -/
theorem c10_witness :
    Blockchain.getBlockByHeight [Block.genesis "w"] (-1) = none ∧
    Blockchain.getBlockByHeight [Block.genesis "w"] 0 =
      some (Block.genesis "w") := by
  constructor
  · exact (c10_getBlockByHeight_total [Block.genesis "w"] (-1)).1
      (Or.inl (by decide))
  · have h := ((c10_getBlockByHeight_total [Block.genesis "w"] 0).2
      (by decide) (by decide)).1
    simpa using h

/-- C6: a transaction with non-positive amount is invalid under EVERY
crypto capability (so before, and independently of, signature
verification); a self-paying transaction is invalid; a valid
coinbase-sender transaction has its amount equal to the block reward at
its (recorded) height; every other valid transaction passes signature
verification. -/
theorem c6_transaction_isValid (P P2 : Crypto) (t : Transaction) :
    (t.amount ≤ 0 →
      Transaction.isValid P t = false ∧
      Transaction.isValid P t = Transaction.isValid P2 t) ∧
    (t.sender = t.recipient → Transaction.isValid P t = false) ∧
    (t.sender = Transaction.COINBASE_SENDER →
      Transaction.isValid P t = true →
      ∃ h : Nat, t.blockHeight = some h ∧
        t.amount = Transaction.calculateBlockReward h) ∧
    (t.sender ≠ Transaction.COINBASE_SENDER →
      Transaction.isValid P t = true →
      Transaction.verify P t = true) := by
  refine ⟨?_, ?_, ?_, ?_⟩
  · intro ha
    have key : ∀ Q : Crypto, Transaction.isValid Q t = false := by
      intro Q
      unfold Transaction.isValid
      split_ifs <;> rfl
    exact ⟨key P, (key P).trans (key P2).symm⟩
  · intro hsr
    unfold Transaction.isValid
    split_ifs <;> rfl
  · intro hcb hval
    unfold Transaction.isValid at hval
    split_ifs at hval with h1 h2 h3
    cases hbh : t.blockHeight with
    | none =>
      rw [hbh] at hval
      simp at hval
    | some hh =>
      rw [hbh] at hval
      exact ⟨hh, rfl, of_decide_eq_true hval⟩
  · intro hnc hval
    unfold Transaction.isValid at hval
    split_ifs at hval with h1 h2 h3
    exact hval

/-- C6, witness: the zero-amount transaction is invalid, and so is a
self-paying one. -/
theorem c6_witness :
    Transaction.isValid P0 txZero = false ∧
    Transaction.isValid P0 txSelf = false := by
  constructor
  · exact ((c6_transaction_isValid P0 P0 txZero).1 (by decide)).1
  · exact (c6_transaction_isValid P0 P0 txSelf).2.1 (by decide)

/-- C1, counterexample: `chainC1` passes isValidChain, yet its
difficulty drift is NOT within 25% of the target interval time over
every interval-sized window — the window starting at genesis spans
1080 s against a 100 s target.  Only the final window is checked by the
code. -/
theorem c1_claim_counterexample :
    Blockchain.isValidChain P0 "r" chainC1 = true ∧
    allWindowsWithinDeviation chainC1 = false := by
  constructor <;> decide

/-- C1, amended: isValidChain returns true only if the chain's first
element equals the genesis block constructed during the call, every
adjacent pair satisfies the block validity check, and the difficulty
drift over the FINAL difficultyAdjustmentInterval-sized window (the last
10 blocks, when the chain has at least 10) stays within 25% of the
target interval time; earlier windows are not checked. -/
theorem c1_isValidChain_amended (P : Crypto) (gr : String)
    (chain : List Block)
    (hv : Blockchain.isValidChain P gr chain = true) :
    chain.head? = some (Block.genesis gr) ∧
    (∀ (i : Nat) (a b : Block), chain.get? i = some a →
      chain.get? (i + 1) = some b →
      BlockValidation.isValidBlock P b a = true) ∧
    (BlockValidation.DIFFICULTY_ADJUSTMENT_INTERVAL ≤ chain.length →
      windowDeviationOk chain
        (chain.length - BlockValidation.DIFFICULTY_ADJUSTMENT_INTERVAL) =
        true) := by
  unfold Blockchain.isValidChain at hv
  cases chain with
  | nil => simp at hv
  | cons first rest =>
    simp only [List.head?_cons] at hv ⊢
    by_cases hg : first = Block.genesis gr
    · rw [if_neg (fun hne => hne hg)] at hv
      rw [Bool.and_eq_true] at hv
      refine ⟨by rw [hg], ?_, ?_⟩
      · exact chainPairsValid_get P (first :: rest) hv.1
      · intro hlen
        rw [← vda_eq_window (first :: rest) hlen]
        exact hv.2
    · rw [if_pos hg] at hv
      cases hv

/-- C1, witness: the amended theorem applied to the concrete valid chain
`chainC1`. -/
theorem c1_amended_witness :
    chainC1.head? = some (Block.genesis "r") :=
  (c1_isValidChain_amended P0 "r" chainC1 (by decide)).1

/-- C2: replacing with a chain no longer than the current one fails with
the chain-not-longer error, replacing with a strictly longer chain that
fails isValidChain fails with the chain-invalid error, and in every
failing case the stored chain is left unchanged. -/
theorem c2_replaceChain (P : Crypto) (gr : String)
    (chain newChain : List Block) :
    (newChain.length ≤ chain.length →
      (Blockchain.replaceChain P gr chain newChain).result =
        .error .chainNotLonger ∧
      (Blockchain.replaceChain P gr chain newChain).chain = chain) ∧
    (chain.length < newChain.length →
      Blockchain.isValidChain P gr newChain = false →
      (Blockchain.replaceChain P gr chain newChain).result =
        .error .chainInvalid ∧
      (Blockchain.replaceChain P gr chain newChain).chain = chain) ∧
    (∀ e, (Blockchain.replaceChain P gr chain newChain).result = .error e →
      (Blockchain.replaceChain P gr chain newChain).chain = chain) := by
  unfold Blockchain.replaceChain
  refine ⟨?_, ?_, ?_⟩
  · intro h
    rw [if_pos h]
    exact ⟨rfl, rfl⟩
  · intro h1 h2
    rw [if_neg (by omega), if_pos (by simp [h2])]
    exact ⟨rfl, rfl⟩
  · intro e
    split_ifs <;> intro he <;> first | rfl | exact he.elim

/-- C2, witness: a one-block candidate against an eleven-block chain
fails with chain-not-longer; the longer tampered candidate `chainBad`
fails with chain-invalid. -/
theorem c2_witness :
    (Blockchain.replaceChain P0 "r" chainC1 [Block.genesis "r"]).result =
      .error .chainNotLonger ∧
    (Blockchain.replaceChain P0 "r" [Block.genesis "r"] chainBad).result =
      .error .chainInvalid := by
  constructor
  · exact ((c2_replaceChain P0 "r" chainC1 [Block.genesis "r"]).1
      (by decide)).1
  · exact ((c2_replaceChain P0 "r" [Block.genesis "r"] chainBad).2.1
      (by decide) (by decide)).1

/-- C5: selectNextValidator fails with the insufficient-validators error
exactly when fewer than the configured minimum of validators are active;
a successful selection is always an active validator; and the consensus
manager's validateBlock returns false on every inactive validator. -/
theorem c5_selectNextValidator (P : Crypto)
    (V : String → Option QProof → String → Bool) (now : Int) (rand : Nat)
    (st : ConsensusManager.CMState) (block : Block) :
    (ConsensusManager.selectNextValidator now rand st =
        .error .insufficientValidators ↔
      (ConsensusManager.activeValidators now st).length <
        ConsensusManager.minValidators) ∧
    (∀ v, ConsensusManager.selectNextValidator now rand st = .ok v →
      ConsensusManager.isValidatorActive now v = true) ∧
    (∀ v, ConsensusManager.isValidatorActive now v = false →
      (ConsensusManager.cmValidateBlock P V now st block v).1 = false) := by
  refine ⟨?_, ?_, ?_⟩
  · constructor
    · intro h
      by_contra hc
      unfold ConsensusManager.selectNextValidator at h
      rw [if_neg hc] at h
      split_ifs at h
      · simp at h
      · split at h
        · simp at h
        · split at h
          · simp at h
          · simp at h
    · intro h
      unfold ConsensusManager.selectNextValidator
      rw [if_pos h]
  · intro v hok
    unfold ConsensusManager.selectNextValidator at hok
    split_ifs at hok with h1 h2
    split at hok
    · rename_i w hw
      simp only [Except.ok.injEq] at hok
      subst hok
      have hmem := walkSelect_mem _ _ _ _ hw
      unfold ConsensusManager.activeValidators at hmem
      exact (List.mem_filter.mp hmem).2
    · split at hok
      · rename_i w ws hw
        simp only [Except.ok.injEq] at hok
        subst hok
        have hmem : w ∈ ConsensusManager.activeValidators now st := by
          rw [hw]
          exact List.mem_cons_self _ _
        unfold ConsensusManager.activeValidators at hmem
        exact (List.mem_filter.mp hmem).2
      · simp at hok
  · intro v hv
    unfold ConsensusManager.cmValidateBlock
    split_ifs with h1 h2 <;> first | rfl | exact absurd h2 (by simp [hv])

/-- C5, witness: an empty registry has zero active validators, so
selection fails with the insufficient-validators error; and validateBlock
returns false on a stale, zero-reputation validator. -/
theorem c5_witness :
    ConsensusManager.selectNextValidator 0 0 cmSt0 =
      .error .insufficientValidators ∧
    (ConsensusManager.cmValidateBlock P0 (fun _ _ _ => true) 0 cmSt0
      BlockValidation.defaultBlock staleV).1 = false := by
  constructor
  · exact (c5_selectNextValidator P0 (fun _ _ _ => true) 0 0 cmSt0
      BlockValidation.defaultBlock).1.mpr (by decide)
  · exact (c5_selectNextValidator P0 (fun _ _ _ => true) 0 0 cmSt0
      BlockValidation.defaultBlock).2.2 staleV (by decide)

/-- C8: registration creates validators at reputation 100, and both
registration and statistics updates keep every registry entry's
reputation inside the integer range [0, 100] (the quality adjustment is
clamped). -/
theorem c8_reputation_in_range (P : Crypto) (proofGen : String → String)
    (now : Int) (st : ConsensusManager.CMState) (address a2 : String)
    (stake : Nat) (publicKey : String) (block : Block)
    (hinv : ∀ p ∈ st.validators, 0 ≤ p.2.reputation ∧ p.2.reputation ≤ 100) :
    (∀ st2 v,
      ConsensusManager.registerValidator proofGen now st address stake
        publicKey = .ok (st2, v) →
      v.reputation = 100 ∧
      ∀ p ∈ st2.validators, 0 ≤ p.2.reputation ∧ p.2.reputation ≤ 100) ∧
    (∀ p ∈ (ConsensusManager.updateValidatorStats P now st a2
        block).validators,
      0 ≤ p.2.reputation ∧ p.2.reputation ≤ 100) := by
  constructor
  · intro st2 v hok
    unfold ConsensusManager.registerValidator at hok
    split_ifs at hok with h1 h2
    simp only [Except.ok.injEq, Prod.mk.injEq] at hok
    obtain ⟨hst2, hv⟩ := hok
    subst hst2
    subst hv
    refine ⟨rfl, ?_⟩
    intro p hp
    rcases mem_insertA hp with rfl | hpm
    · exact ⟨show (0 : Int) ≤ 100 by norm_num, show (100 : Int) ≤ 100 by norm_num⟩
    · exact hinv p hpm
  · intro p hp
    unfold ConsensusManager.updateValidatorStats at hp
    split at hp
    · exact hinv p hp
    · rcases mem_insertA hp with rfl | hpm
      · exact ⟨le_max_left 0 _, max_le (by decide) (min_le_left _ _)⟩
      · exact hinv p hpm

/-- C8, witness: after one statistics update on the registry holding the
freshly registered validator, its reputation is still within [0, 100]. -/
theorem c8_witness :
    (0 : Int) ≤ regV2.reputation ∧ regV2.reputation ≤ 100 :=
  (c8_reputation_in_range P0 (fun _ => "qp") 0 cmSt1 "a" "a" 1000000 "pk"
    BlockValidation.defaultBlock (by decide)).2 ("a", regV2) (by decide)

/-- Folding the reward loop over entries whose keys avoid `addr` leaves
`addr`'s binding untouched. -/
theorem rewardStep_fold_notmem (st : ConsensusManager.CMState) :
    ∀ (l : List (String × List Block)) (init : List (String × Int))
      (addr : String),
      addr ∉ l.map Prod.fst →
      lookupA (l.foldl (ConsensusManager.rewardStep st) init) addr =
        lookupA init addr := by
  intro l
  induction l with
  | nil => intro init addr _; rfl
  | cons p rest ih =>
    intro init addr hna
    simp only [List.map_cons, List.mem_cons] at hna
    push_neg at hna
    rw [List.foldl_cons, ih _ addr hna.2]
    unfold ConsensusManager.rewardStep
    split
    · rfl
    · exact lookupA_insertA_ne _ _ _ _ hna.1

/-- With no duplicate addresses in an epoch's bookkeeping, the reward
loop binds each recorded registered validator exactly to its computed
reward. -/
theorem rewardStep_fold_lookup (st : ConsensusManager.CMState) :
    ∀ (l : List (String × List Block)) (init : List (String × Int))
      (addr : String) (blocks : List Block)
      (v : ConsensusManager.Validator),
      (l.map Prod.fst).Nodup → (addr, blocks) ∈ l →
      lookupA st.validators addr = some v →
      lookupA (l.foldl (ConsensusManager.rewardStep st) init) addr =
        some (ConsensusManager.validatorReward v blocks) := by
  intro l
  induction l with
  | nil =>
    intro init addr blocks v _ hmem _
    simp at hmem
  | cons p rest ih =>
    intro init addr blocks v hnd hmem hv
    simp only [List.map_cons, List.nodup_cons] at hnd
    rw [List.foldl_cons]
    rcases List.mem_cons.mp hmem with heq | hmem2
    · have hp1 : p.1 = addr := by rw [← heq]
      have hp2 : p.2 = blocks := by rw [← heq]
      have hrest : addr ∉ rest.map Prod.fst := hp1 ▸ hnd.1
      rw [rewardStep_fold_notmem st rest _ addr hrest]
      unfold ConsensusManager.rewardStep
      rw [hp1, hv, hp2]
      exact lookupA_insertA_self init addr
        (ConsensusManager.validatorReward v blocks)
    · exact ih _ addr blocks v hnd.2 hmem2 hv

/-- C7: for every epoch with recorded blocks (one entry per address),
each recorded registered validator's computed reward is
floor(blocksProduced x blockReward x (stake / minStake) x
(reputation / 100)); distributeRewards credits exactly the computed
rewards once, deletes the epoch's bookkeeping entry and advances the
epoch counter, after which recomputing the epoch's rewards yields
nothing — the epoch cannot be redistributed. -/
theorem c7_epoch_rewards (st : ConsensusManager.CMState) (epoch : Nat)
    (hnd : (((lookupA st.epochBlocks epoch).getD []).map Prod.fst).Nodup) :
    (∀ (addr : String) (blocks : List Block)
      (v : ConsensusManager.Validator),
      (addr, blocks) ∈ (lookupA st.epochBlocks epoch).getD [] →
      lookupA st.validators addr = some v →
      lookupA (ConsensusManager.calculateValidatorRewards st epoch) addr =
        some ⌊(blocks.length : Rat) * (ConsensusManager.blockReward : Rat) *
          ((v.stake : Rat) / (ConsensusManager.minStake : Rat)) *
          ((v.reputation : Rat) / 100)⌋) ∧
    ((ConsensusManager.distributeRewards st epoch).credits =
      st.credits ++ ConsensusManager.calculateValidatorRewards st epoch) ∧
    (lookupA (ConsensusManager.distributeRewards st epoch).epochBlocks
      epoch = none) ∧
    ((ConsensusManager.distributeRewards st epoch).currentEpoch =
      st.currentEpoch + 1) ∧
    (ConsensusManager.calculateValidatorRewards
      (ConsensusManager.distributeRewards st epoch) epoch = []) := by
  refine ⟨?_, rfl, ?_, rfl, ?_⟩
  · intro addr blocks v hmem hv
    exact rewardStep_fold_lookup st _ [] addr blocks v hnd hmem hv
  · exact lookupA_eraseA_self _ _
  · simp [ConsensusManager.calculateValidatorRewards,
      ConsensusManager.distributeRewards, lookupA_eraseA_self]

/-- C7, witness: a validator with double the minimum stake, reputation
50 and three recorded blocks earns floor(3 x 50 x 2 x 0.5) = 150 in
epoch 0, and distributing advances the epoch counter. -/
theorem c7_witness :
    lookupA (ConsensusManager.calculateValidatorRewards cmSt7 0) "a" =
      some 150 ∧
    (ConsensusManager.distributeRewards cmSt7 0).currentEpoch = 1 := by
  constructor
  · have h := (c7_epoch_rewards cmSt7 0 (by decide)).1 "a"
      [BlockValidation.defaultBlock, BlockValidation.defaultBlock,
       BlockValidation.defaultBlock] rewV (by decide) (by decide)
    have h2 : (([BlockValidation.defaultBlock, BlockValidation.defaultBlock,
          BlockValidation.defaultBlock].length : Rat) *
        (ConsensusManager.blockReward : Rat) *
        ((rewV.stake : Rat) / (ConsensusManager.minStake : Rat)) *
        ((rewV.reputation : Rat) / 100)) = ((150 : Int) : Rat) := by
      norm_num [rewV, ConsensusManager.blockReward, ConsensusManager.minStake]
    rw [h, h2, Int.floor_intCast]
  · exact (c7_epoch_rewards cmSt7 0 (by decide)).2.2.2.1

/-- C3, counterexample: after submitting the cross-shard transaction
`tx0` (source s0, target s1) and finalizing TWO blocks containing it on
the SAME shard s0, its status is completed and it has been removed from
s1's pending table — although s1 never finalized any block containing
it.  Completion does not require both shards to have finalized. -/
theorem c3_claim_counterexample :
    (((ShardManager.processCrossShardTransaction Q0 100 smSt0 tx0).bind
      (fun st1 => (ShardManager.finalizeBlock Q0 200 st1 "s0" blk0
          sigs0).bind
        (fun st2 => ShardManager.finalizeBlock Q0 300 st2 "s0" blk0
          sigs0))).map (csObs tx0 "s0" "s1")).toOption =
      some (some .completed, some none, some none) := by
  decide

/-- C3, amended: a cross-shard transaction routed from shard s0 to shard
s1 is recorded pending and present in both shards' pending tables on
submission; after a first block finalization containing it (on s0), its
status is processing and it still appears in s1's pending table; it is
removed from both shards' pending tables when it becomes completed,
which happens on the SECOND block finalization containing it — on either
shard, so both finalizations may occur on the same shard; the manager
does not check that both shards finalized it. -/
theorem c3_lifecycle_amended (Q : ShardManager.SMParams)
    (nowS nowF1 nowF2 : Int) (t : Transaction) (s0 s1 sB : String)
    (sh0 sh1 : ShardManager.Shard) (sv : List (String × String))
    (cst : List (String × ShardManager.CrossShardTx))
    (block1 block2 : Block) (sigs1 sigs2 : List (String × Sig))
    (hne : s0 ≠ s1)
    (hs : Q.addrHash t.sender % Q.totalShards = 0)
    (hr : Q.addrHash t.recipient % Q.totalShards = 1)
    (hb1 : block1.transactions = [t])
    (hb2 : block2.transactions = [t])
    (hq1 : Q.minValidatorsPerShard ≤
      (ShardManager.verifyValidatorSignatures Q block1.hash sigs1).length)
    (hq2 : Q.minValidatorsPerShard ≤
      (ShardManager.verifyValidatorSignatures Q block2.hash sigs2).length)
    (hsB : sB = s0 ∨ sB = s1) :
    ((ShardManager.processCrossShardTransaction Q nowS
        { shards := [(s0, sh0), (s1, sh1)], shardValidators := sv,
          crossShardTransactions := cst } t).map
      (csObs t s0 s1)).toOption =
      some (some .pending, some (some t), some (some t)) ∧
    (((ShardManager.processCrossShardTransaction Q nowS
        { shards := [(s0, sh0), (s1, sh1)], shardValidators := sv,
          crossShardTransactions := cst } t).bind
      (fun st1 => ShardManager.finalizeBlock Q nowF1 st1 s0 block1
        sigs1)).map (csObs t s0 s1)).toOption =
      some (some .processing, some none, some (some t)) ∧
    (((ShardManager.processCrossShardTransaction Q nowS
        { shards := [(s0, sh0), (s1, sh1)], shardValidators := sv,
          crossShardTransactions := cst } t).bind
      (fun st1 => (ShardManager.finalizeBlock Q nowF1 st1 s0 block1
          sigs1).bind
        (fun st2 => ShardManager.finalizeBlock Q nowF2 st2 sB block2
          sigs2))).map (csObs t s0 s1)).toOption =
      some (some .completed, some none, some none) := by
  have hne2 : s1 ≠ s0 := Ne.symm hne
  have e1 : ShardManager.processCrossShardTransaction Q nowS
      { shards := [(s0, sh0), (s1, sh1)], shardValidators := sv,
        crossShardTransactions := cst } t =
      .ok
        { shards :=
            [(s0,
              { sh0 with
                pendingTransactions :=
                  insertA sh0.pendingTransactions t.hash t }),
             (s1,
              { sh1 with
                pendingTransactions :=
                  insertA sh1.pendingTransactions t.hash t })]
          shardValidators := sv
          crossShardTransactions :=
            insertA cst t.hash
              { transaction := t
                sourceShard := s0
                targetShard := s1
                proof := Q.genCrossShardProof (t.hash ++ s0 ++ s1)
                status := .pending
                timestamp := nowS
                finalizationProof := none
                completedAt := none } } := by
    unfold ShardManager.processCrossShardTransaction
      ShardManager.getTransactionShard ShardManager.getAddressShard
      ShardManager.updateShard
    simp [hs, hr, hne, hne2]
  have e2 : ShardManager.finalizeBlock Q nowF1
      { shards :=
          [(s0,
            { sh0 with
              pendingTransactions :=
                insertA sh0.pendingTransactions t.hash t }),
           (s1,
            { sh1 with
              pendingTransactions :=
                insertA sh1.pendingTransactions t.hash t })]
        shardValidators := sv
        crossShardTransactions :=
          insertA cst t.hash
            { transaction := t
              sourceShard := s0
              targetShard := s1
              proof := Q.genCrossShardProof (t.hash ++ s0 ++ s1)
              status := .pending
              timestamp := nowS
              finalizationProof := none
              completedAt := none } }
      s0 block1 sigs1 =
      .ok
        { shards :=
            [(s0,
              { sh0 with
                chain := sh0.chain ++ [block1]
                pendingTransactions :=
                  eraseA (insertA sh0.pendingTransactions t.hash t) t.hash
                lastProcessedBlock := some block1 }),
             (s1,
              { sh1 with
                pendingTransactions :=
                  insertA sh1.pendingTransactions t.hash t })]
          shardValidators := sv
          crossShardTransactions :=
            insertA
              (insertA cst t.hash
                { transaction := t
                  sourceShard := s0
                  targetShard := s1
                  proof := Q.genCrossShardProof (t.hash ++ s0 ++ s1)
                  status := .pending
                  timestamp := nowS
                  finalizationProof := none
                  completedAt := none })
              t.hash
              { transaction := t
                sourceShard := s0
                targetShard := s1
                proof := Q.genCrossShardProof (t.hash ++ s0 ++ s1)
                status := .processing
                timestamp := nowS
                finalizationProof := none
                completedAt := none } } := by
    unfold ShardManager.finalizeBlock
      ShardManager.processCrossShardTransactions ShardManager.updateShard
    rw [hb1]
    simp [lookupA, lookupA_insertA_self, hne, hne2, Nat.not_lt.mpr hq1]
  refine ⟨?_, ?_, ?_⟩
  · rw [e1]
    simp [csObs, Except.map, Except.toOption, lookupA, lookupA_insertA_self,
      hne, hne2]
  · rw [e1]
    simp only [Except.bind]
    rw [e2]
    simp [csObs, Except.map, Except.toOption, lookupA, lookupA_insertA_self,
      lookupA_eraseA_self, hne, hne2]
  · rw [e1]
    simp only [Except.bind]
    rw [e2]
    simp only [Except.bind]
    rcases hsB with rfl | rfl
    · unfold ShardManager.finalizeBlock
        ShardManager.processCrossShardTransactions
        ShardManager.finalizeCrossShardTransaction ShardManager.updateShard
      rw [hb2]
      simp [csObs, Except.map, Except.toOption, lookupA,
        lookupA_insertA_self, lookupA_eraseA_self, hne, hne2,
        Nat.not_lt.mpr hq2]
    · unfold ShardManager.finalizeBlock
        ShardManager.processCrossShardTransactions
        ShardManager.finalizeCrossShardTransaction ShardManager.updateShard
      rw [hb2]
      simp [csObs, Except.map, Except.toOption, lookupA,
        lookupA_insertA_self, lookupA_eraseA_self, hne, hne2,
        Nat.not_lt.mpr hq2]

/-- C3, witness: the amended lifecycle realized on the concrete
two-shard state: submit `tx0`, finalize a block containing it on s0,
then finalize one on s1 — completed and cleared from both pending
tables. -/
theorem c3_amended_witness :
    (((ShardManager.processCrossShardTransaction Q0 100 smSt0 tx0).bind
      (fun st1 => (ShardManager.finalizeBlock Q0 200 st1 "s0" blk0
          sigs0).bind
        (fun st2 => ShardManager.finalizeBlock Q0 300 st2 "s1" blk0
          sigs0))).map (csObs tx0 "s0" "s1")).toOption =
      some (some .completed, some none, some none) :=
  (c3_lifecycle_amended Q0 100 200 300 tx0 "s0" "s1" "s1"
    (emptyShard "s0") (emptyShard "s1") [] [] blk0 blk0 sigs0 sigs0
    (by decide) (by decide) (by decide) rfl rfl (by decide) (by decide)
    (Or.inr rfl)).2.2

end QRChain
